import Mathlib

/-
Verification of the SARIF report generation, environment-variable resolution
and orchestration code of the datadog-static-analyzer repository.

Source files embedded here:
  src/cli/src/sarif/sarif_utils.rs
  src/cli/src/datadog_utils.rs
  src/bins/src/bin/datadog-static-analyzer.rs

The kernel data model (crate kernel, modules model::rule, model::common and
model::violation) is not shipped in src/; the types below that come from it
are modelled from the spec (spec.md sections 3 and 6), restricted to the
fields this code reads.
-/

namespace StaticAnalyzer

/-- Modelled from the spec: kernel RuleSeverity (section 3: Notice, Warning,
Error) together with the catch-all variant covered by the wildcard arm of
get_level_from_severity. -/
inductive RuleSeverity where
  | notice
  | warning
  | error
  | none
deriving DecidableEq

/-- Modelled from the spec: kernel RuleCategory; the report generator only
reads the display string of the category. -/
inductive RuleCategory where
  | bestPractices
  | codeStyle
  | errorProne
  | performance
  | security
deriving DecidableEq

/-- Display string of a category, as interpolated by the format macro in
generate_results. -/
def RuleCategory.display : RuleCategory → String
  | .bestPractices => "best_practices"
  | .codeStyle => "code_style"
  | .errorProne => "error_prone"
  | .performance => "performance"
  | .security => "security"

/-- Modelled from the spec: kernel Position, a 1-based line and column. -/
structure Position where
  line : Nat
  col : Nat
deriving DecidableEq

/-- Modelled from the spec: kernel EditType, one of Add, Remove, Update. -/
inductive EditType where
  | add
  | remove
  | update
deriving DecidableEq

/-- Modelled from the spec: kernel Edit (section 3). Add carries an insertion
position and content; Remove carries a deleted range; Update carries a deleted
range and replacement content. The Rust field named end is a Lean keyword and
is called endPos here. -/
structure Edit where
  edit_type : EditType
  start : Position
  endPos : Option Position
  content : Option String
deriving DecidableEq

/-- Modelled from the spec: kernel Fix (violation module): a description and
an ordered sequence of edits. -/
structure RosieFix where
  description : String
  edits : List Edit
deriving DecidableEq

/-- Modelled from the spec: kernel Violation (section 3). The Rust field named
end is called endPos here. -/
structure Violation where
  start : Position
  endPos : Position
  message : String
  severity : RuleSeverity
  category : RuleCategory
  fixes : List RosieFix
deriving DecidableEq

/-- Modelled from the spec: kernel Rule, restricted to the fields the SARIF
generator reads (name, encoded descriptions, category, severity). -/
structure Rule where
  name : String
  description_base64 : Option String
  short_description_base64 : Option String
  category : RuleCategory
  severity : RuleSeverity
deriving DecidableEq

/-- Modelled from the spec: kernel RuleResult (section 3), restricted to the
fields read by the report generator and the orchestrator. -/
structure RuleResult where
  rule_name : String
  filename : String
  violations : List Violation
  errors : List String
  execution_time_ms : Nat
deriving DecidableEq

/-- Modelled from the spec: Rule.get_url from the kernel, the per-rule help
URI placed in the descriptor (section 6: one descriptor per rule with
id/help-URI/descriptions). -/
def Rule.getUrl (r : Rule) : String :=
  "https://docs.datadoghq.com/continuous_integration/static_analysis/rules/" ++ r.name

namespace sarif

/-- SARIF region; the code always sets all four fields. -/
structure Region where
  start_line : Nat
  start_column : Nat
  end_line : Nat
  end_column : Nat
deriving DecidableEq

/-- SARIF artifact content; only the text field is used. -/
structure ArtifactContent where
  text : String
deriving DecidableEq

/-- SARIF replacement: a deleted region and optional inserted content. -/
structure Replacement where
  deleted_region : Region
  inserted_content : Option ArtifactContent
deriving DecidableEq

/-- SARIF artifact location; only the uri field is used. -/
structure ArtifactLocation where
  uri : String
deriving DecidableEq

/-- SARIF physical location. -/
structure PhysicalLocation where
  artifact_location : ArtifactLocation
  region : Region
deriving DecidableEq

/-- SARIF location. -/
structure Location where
  physical_location : PhysicalLocation
deriving DecidableEq

/-- SARIF message; only the text field is used. -/
structure Message where
  text : String
deriving DecidableEq

/-- SARIF artifact change. -/
structure ArtifactChange where
  artifact_location : ArtifactLocation
  replacements : List Replacement
deriving DecidableEq

/-- SARIF fix. -/
structure Fix where
  description : Message
  artifact_changes : List ArtifactChange
deriving DecidableEq

/-- SARIF property bag; only the tags field is used. -/
structure PropertyBag where
  tags : List String
deriving DecidableEq

/-- SARIF result. Fields never set by the builder are None. -/
structure Result where
  rule_id : String
  rule_index : Option Nat
  level : Option String
  locations : List Location
  fixes : List Fix
  message : Message
  properties : PropertyBag
  partial_fingerprints : List (String × String)
deriving DecidableEq

/-- SARIF multiformat message string. -/
structure MultiformatMessageString where
  text : String
deriving DecidableEq

/-- SARIF reporting descriptor (one per rule). -/
structure ReportingDescriptor where
  id : String
  full_description : Option MultiformatMessageString
  short_description : Option MultiformatMessageString
  help_uri : String
deriving DecidableEq

/-- SARIF tool component. -/
structure ToolComponent where
  name : String
  information_uri : String
  rules : List ReportingDescriptor
deriving DecidableEq

/-- SARIF tool. -/
structure Tool where
  driver : ToolComponent
deriving DecidableEq

/-- SARIF run. -/
structure Run where
  tool : Tool
  results : List Result
deriving DecidableEq

/-- SARIF top-level report. -/
structure Sarif where
  version : String
  runs : List Run
deriving DecidableEq

end sarif

/-- Model of git2 Repository as this code uses it: blame_file either fails or
yields, per 1-based line number, the final commit id of the blame hunk
covering that line when one does. -/
structure GitRepo where
  blameFile : String → Option (Nat → Option String)

/-- SarifGenerationOptions from sarif_utils.rs. -/
structure SarifGenerationOptions where
  add_git_info : Bool
  git_repo : Option GitRepo
  debug : Bool

/-- get_level_from_severity from sarif_utils.rs lines 166-174. -/
def getLevelFromSeverity : RuleSeverity → String
  | .notice => "note"
  | .warning => "warning"
  | .error => "error"
  | _ => "none"

/-- get_sha_for_line from sarif_utils.rs lines 176-197. The Ok branch calls
blame.get_line(line).unwrap(); the unwrap panic is modelled as Except.error. -/
def getShaForLine (filename : String) (line : Nat)
    (generation_options : SarifGenerationOptions) : Except String (Option String) :=
  match generation_options.git_repo with
  | Option.none => Except.ok Option.none
  | some git_repo =>
    match git_repo.blameFile filename with
    | some blame =>
      match blame line with
      | some commitId => Except.ok (some commitId)
      | Option.none => Except.error "panic: blame get_line returned None"
    | Option.none => Except.ok Option.none

/-- IntoSarif for Edit, sarif_utils.rs lines 75-144. The unwrap of the content
field in the Add and Update branches is modelled by Option.map (None models
the panic). The Remove branch of the source builds the deleted region from
the start position only; the Update branch substitutes position (0,0) when
the end position is missing. -/
def editIntoSarif (e : Edit) : Option sarif.Replacement :=
  match e.edit_type with
  | .add =>
    e.content.map fun c =>
      { deleted_region :=
          { start_line := e.start.line, start_column := e.start.col,
            end_line := e.start.line, end_column := e.start.col },
        inserted_content := some { text := c } }
  | .remove =>
    some
      { deleted_region :=
          { start_line := e.start.line, start_column := e.start.col,
            end_line := e.start.line, end_column := e.start.col },
        inserted_content := Option.none }
  | .update =>
    e.content.map fun c =>
      { deleted_region :=
          { start_line := e.start.line, start_column := e.start.col,
            end_line := (e.endPos.getD { line := 0, col := 0 }).line,
            end_column := (e.endPos.getD { line := 0, col := 0 }).col },
        inserted_content := some { text := c } }

/-- Mirror of collect over an iterator of options (a None, i.e. a panic in
the mapped closure, propagates). -/
def collectOption {α : Type} : List (Option α) → Option (List α)
  | [] => some []
  | x :: xs =>
    match x with
    | some a =>
      match collectOption xs with
      | some rest => some (a :: rest)
      | Option.none => Option.none
    | Option.none => Option.none

/-- Mirror of collect into Result over an iterator of results: the first
error wins, otherwise the list of Ok payloads in order. -/
def collectExcept {ε α : Type} : List (Except ε α) → Except ε (List α)
  | [] => Except.ok []
  | x :: xs =>
    match x with
    | Except.error e => Except.error e
    | Except.ok a =>
      match collectExcept xs with
      | Except.error e => Except.error e
      | Except.ok rest => Except.ok (a :: rest)

/-- Whether an edit carries non-empty content (the data-model invariant of
spec section 3 for Add and Update edits). -/
def editHasContent (e : Edit) : Bool :=
  match e.content with
  | some s => s ≠ ""
  | Option.none => false

/-- Helper: under the content invariant, the edit conversion is total. -/
lemma editIntoSarif_total (e : Edit)
    (h : e.edit_type = EditType.add ∨ e.edit_type = EditType.update → editHasContent e = true) :
    (editIntoSarif e).isSome = true := by
  unfold editIntoSarif
  cases he : e.edit_type with
  | remove => simp
  | add =>
    have hc := h (Or.inl he)
    unfold editHasContent at hc
    cases hcont : e.content with
    | none => rw [hcont] at hc; simp at hc
    | some s => simp [hcont]
  | update =>
    have hc := h (Or.inr he)
    unfold editHasContent at hc
    cases hcont : e.content with
    | none => rw [hcont] at hc; simp at hc
    | some s => simp [hcont]

/-- num_threads from datadog-static-analyzer.rs line 239: the worker count is
the ideal thread count clamped up to 1 when it is zero. The floating-point
expression of line 238 computing the ideal count is abstracted as an
arbitrary natural number (the usize cast always yields one); the property at
stake depends only on the clamp. -/
def numThreads (idealThreads : Nat) : Nat :=
  if idealThreads == 0 then 1 else idealThreads

/-- Per-file analysis loop from datadog-static-analyzer.rs lines 275-293: for
each file, read its content; on success analyze it (the kernel analyze
function, outside src/, is abstracted as a parameter already closed over the
language, rules and options), on failure contribute no results and continue. -/
def analyzeFiles (analyzeFile : String → String → List RuleResult)
    (readToString : String → Option String) (files : List String) : List RuleResult :=
  files.flatMap fun path =>
    match readToString path with
    | some fileContent => analyzeFile path fileContent
    | Option.none => []

/-- DEFAULT_DATADOG_SITE from datadog_utils.rs line 9. -/
def DEFAULT_DATADOG_SITE : String := "datadoghq.com"

/-- get_datadog_variable_value from datadog_utils.rs lines 23-33: try the
prefixes DD then DATADOG in order against the environment (modelled as a
partial map from variable name to value) and return the first value found,
or an error when none is. -/
def getDatadogVariableValue (env : String → Option String) (varName : String) :
    Except String String :=
  let prefixList := [ "DD", "DATADOG"]
  match prefixList.findSome? (fun p => env (p ++ "_" ++ varName)) with
  | some varValue => Except.ok varValue
  | Option.none => Except.error "cannot find variable value"

/-- The HTTP request assembled by get_ruleset (datadog_utils.rs lines 38-57)
before it is sent: its URL and its headers in the order they are added. -/
structure Request where
  url : String
  headers : List (String × String)
deriving DecidableEq

/-- Request construction of get_ruleset, datadog_utils.rs lines 38-57: the
site defaults to DEFAULT_DATADOG_SITE, and the datadog credential headers are
added only when both the app key and the api key resolve. The send and JSON
decoding of the response are external I/O and are not modelled. -/
def buildRulesetRequest (env : String → Option String) (rulesetName : String) : Request :=
  let site := match getDatadogVariableValue env "SITE" with
    | Except.ok s => s
    | Except.error _ => DEFAULT_DATADOG_SITE
  let appKey := getDatadogVariableValue env "APP_KEY"
  let apiKey := getDatadogVariableValue env "API_KEY"
  let url := "https://api." ++ site ++ "/api/v2/static-analysis/rulesets/" ++ rulesetName
  let requestBuilder : Request :=
    { url := url, headers := [( "Content-Type", "application/json")] }
  match appKey, apiKey with
  | Except.ok appk, Except.ok apik =>
    { requestBuilder with
        headers := requestBuilder.headers ++ [( "dd-api-key", apik), ( "dd-application-key", appk)] }
  | _, _ => requestBuilder

/-- IntoSarif for Rule, sarif_utils.rs lines 37-72. The external base64 engine
composed with the utf8 view of the decoded bytes is modelled by the b64decode
parameter: an outer None is a decoding failure (the unwrap there panics), an
inner None is non-utf8 decoded bytes (replaced by a fallback text through
unwrap_or). -/
def ruleIntoSarif (b64decode : String → Option (Option String)) (r : Rule) :
    Except String sarif.ReportingDescriptor := do
  let fullDescription : Option sarif.MultiformatMessageString ←
    match r.description_base64 with
    | Option.none => Except.ok Option.none
    | some d =>
      match b64decode d with
      | Option.none => Except.error "panic: description is not valid base64"
      | some Option.none => Except.ok (some { text := "invalid full description" })
      | some (some t) => Except.ok (some { text := t })
  let shortDescription : Option sarif.MultiformatMessageString ←
    match r.short_description_base64 with
    | Option.none => Except.ok Option.none
    | some d =>
      match b64decode d with
      | Option.none => Except.error "panic: short description is not valid base64"
      | some Option.none => Except.ok (some { text := "invalid short description" })
      | some (some t) => Except.ok (some { text := t })
  Except.ok
    { id := r.name, full_description := fullDescription,
      short_description := shortDescription, help_uri := r.getUrl }

/-- generate_tool_section from sarif_utils.rs lines 147-160. -/
def generateToolSection (b64decode : String → Option (Option String)) (rules : List Rule) :
    Except String sarif.Tool := do
  let descriptors ← collectExcept (rules.map (ruleIntoSarif b64decode))
  Except.ok
    { driver :=
        { name := "datadog-static-analyzer",
          information_uri := "https://www.datadoghq.com",
          rules := descriptors } }

/-- The per-fix closure of generate_results (sarif_utils.rs lines 250-270):
convert the edits of one fix into replacements (a panic inside the edit
conversion propagates) and wrap them in a single artifact change. -/
def fixIntoSarif (filename : String) (fix : RosieFix) : Except String sarif.Fix :=
  match collectOption (fix.edits.map editIntoSarif) with
  | Option.none => Except.error "panic: edit content missing"
  | some replacements =>
    Except.ok
      { description := { text := fix.description },
        artifact_changes :=
          [{ artifact_location := { uri := filename },
             replacements := replacements }] }

/-- The body of the inner closure of generate_results (sarif_utils.rs lines
223-301): build one SARIF result from one violation, given the filename and
rule name of the enclosing RuleResult and the index, level and category tags
already computed from the rule lookup. -/
def violationIntoSarifResult (filename ruleName : String) (ruleIndex : Option Nat)
    (level : Option String) (categoryTags : List String)
    (options : SarifGenerationOptions) (violation : Violation) :
    Except String sarif.Result :=
  let location : sarif.Location :=
    { physical_location :=
        { artifact_location := { uri := filename },
          region :=
            { start_line := violation.start.line, start_column := violation.start.col,
              end_line := violation.endPos.line, end_column := violation.endPos.col } } }
  match collectExcept (violation.fixes.map (fixIntoSarif filename)) with
  | Except.error e => Except.error e
  | Except.ok fixes =>
    match getShaForLine filename violation.start.line options with
    | Except.error e => Except.error e
    | Except.ok shaOption =>
      Except.ok
        { rule_id := ruleName, rule_index := ruleIndex, level := level,
          locations := [location], fixes := fixes,
          message := { text := violation.message },
          properties := { tags := categoryTags },
          partial_fingerprints :=
            match shaOption with
            | some s => [( "SHA", s)]
            | Option.none => [] }

/-- generate_results from sarif_utils.rs lines 200-305: for each RuleResult,
look the rule up by name to obtain its index, level and category tag, then
emit one SARIF result per violation; the flat iterator of per-violation
results is collected, the first error winning. -/
def generateResults (rules : List Rule) (rulesResults : List RuleResult)
    (optionsOrig : SarifGenerationOptions) : Except String (List sarif.Result) :=
  collectExcept <| rulesResults.flatMap fun ruleResult =>
    let found := rules.enum.find? fun p => p.2.name == ruleResult.rule_name
    let ruleIndex : Option Nat := found.map Prod.fst
    let level : Option String := found.map fun p => getLevelFromSeverity p.2.severity
    let categoryTags : List String :=
      match found with
      | some p => [(( "DATADOG_CATEGORY:" ++ p.2.category.display).toUpper)]
      | Option.none => []
    ruleResult.violations.map
      (violationIntoSarifResult ruleResult.filename ruleResult.rule_name
        ruleIndex level categoryTags optionsOrig)

/-- generate_sarif_report from sarif_utils.rs lines 310-345. Opening the git
repository is external I/O, modelled by the repositoryOpen parameter; the
panic when opening fails under add_git_info is modelled as Except.error. -/
def generateSarifReport (b64decode : String → Option (Option String))
    (repositoryOpen : String → Option GitRepo) (rules : List Rule)
    (rulesResults : List RuleResult) (directory : String)
    (addGitInfo debug : Bool) : Except String sarif.Sarif := do
  let repository : Option GitRepo ←
    if addGitInfo then
      match repositoryOpen directory with
      | some repo => Except.ok (some repo)
      | Option.none =>
        Except.error "panic: Please provide a valid Git repository or disable Git integration"
    else Except.ok Option.none
  let options : SarifGenerationOptions :=
    { add_git_info := addGitInfo, git_repo := repository, debug := debug }
  let tool ← generateToolSection b64decode rules
  let results ← generateResults rules rulesResults options
  Except.ok { version := "2.1.0", runs := [{ tool := tool, results := results }] }

end StaticAnalyzer

namespace StaticAnalyzer

/-- C1: the SARIF level produced by get_level_from_severity maps Notice to
note, Warning to warning, Error to error, and any other severity to none. -/
theorem getLevelFromSeverity_mapping :
    getLevelFromSeverity RuleSeverity.notice = "note" ∧
    getLevelFromSeverity RuleSeverity.warning = "warning" ∧
    getLevelFromSeverity RuleSeverity.error = "error" ∧
    ∀ s : RuleSeverity, s ≠ RuleSeverity.notice → s ≠ RuleSeverity.warning →
      s ≠ RuleSeverity.error → getLevelFromSeverity s = "none" := by
  refine ⟨rfl, rfl, rfl, ?_⟩
  intro s h1 h2 h3
  cases s with
  | notice => exact absurd rfl h1
  | warning => exact absurd rfl h2
  | error => exact absurd rfl h3
  | none => rfl

/-- Witness for C1: the wildcard arm at the remaining severity. -/
theorem getLevelFromSeverity_mapping_witness :
    (RuleSeverity.none ≠ RuleSeverity.notice) ∧
    getLevelFromSeverity RuleSeverity.none = "none" :=
  ⟨by decide,
   getLevelFromSeverity_mapping.2.2.2 RuleSeverity.none (by decide) (by decide) (by decide)⟩

/-- C7: for every value of the ideal-thread computation (hence for every
configured CPU count, including 0 and 1), the worker-pool thread count is at
least one. -/
theorem numThreads_at_least_one (idealThreads : Nat) : 1 ≤ numThreads idealThreads := by
  unfold numThreads
  cases idealThreads with
  | zero => simp
  | succ n => simp

/-- Remove edit used to exhibit the divergence of claim C4. -/
def c4Edit : Edit :=
  { edit_type := EditType.remove, start := { line := 1, col := 2 },
    endPos := some { line := 3, col := 4 }, content := Option.none }

/-- C4 (code bug evidence): for a Remove edit from (1,2) to (3,4), the code
produces a deleted region that is the zero-width range at the start position
(1,2)-(1,2), not the deleted range (1,2)-(3,4) of the edit: the Remove branch
never reads the end position. -/
theorem editIntoSarif_remove_ignores_end :
    editIntoSarif c4Edit =
      some { deleted_region :=
               { start_line := 1, start_column := 2, end_line := 1, end_column := 2 },
             inserted_content := Option.none } ∧
    (editIntoSarif c4Edit).map (fun r => r.deleted_region) ≠
      some { start_line := 1, start_column := 2, end_line := 3, end_column := 4 } := by
  exact ⟨rfl, by decide⟩

/-- C9: under the data-model invariant that every Add and Update edit carries
non-empty content, converting any Edit to a SARIF replacement is total and
never panics, for all three edit types. -/
theorem editIntoSarif_total_under_invariant (e : Edit)
    (h : e.edit_type = EditType.add ∨ e.edit_type = EditType.update → editHasContent e = true) :
    (editIntoSarif e).isSome = true :=
  editIntoSarif_total e h

/-- Witness for C9 at a concrete Add edit carrying content. -/
theorem editIntoSarif_total_under_invariant_witness :
    (let e : Edit := { edit_type := EditType.add, start := { line := 1, col := 1 },
                       endPos := Option.none, content := some "x" }
     (e.edit_type = EditType.add ∨ e.edit_type = EditType.update → editHasContent e = true) ∧
     (editIntoSarif e).isSome = true) :=
  ⟨by decide,
   editIntoSarif_total_under_invariant
     { edit_type := EditType.add, start := { line := 1, col := 1 },
       endPos := Option.none, content := some "x" } (by decide)⟩

/-- C6: get_datadog_variable_value tries exactly the two prefixes DD then
DATADOG in order, returns the value of the first environment variable that is
set, and returns an error when neither is set. -/
theorem getDatadogVariableValue_resolution (env : String → Option String) (v : String) :
    (∀ x, env ("DD_" ++ v) = some x → getDatadogVariableValue env v = Except.ok x) ∧
    (env ("DD_" ++ v) = Option.none →
      ∀ y, env ("DATADOG_" ++ v) = some y → getDatadogVariableValue env v = Except.ok y) ∧
    (env ("DD_" ++ v) = Option.none → env ("DATADOG_" ++ v) = Option.none →
      getDatadogVariableValue env v = Except.error "cannot find variable value") := by
  refine ⟨?_, ?_, ?_⟩
  · intro x hx
    simp [getDatadogVariableValue, List.findSome?, hx]
  · intro h1 y hy
    simp [getDatadogVariableValue, List.findSome?, h1, hy]
  · intro h1 h2
    simp [getDatadogVariableValue, List.findSome?, h1, h2]

/-- Witness for C6: an environment with only the DATADOG-prefixed variable set
resolves through the second prefix. -/
theorem getDatadogVariableValue_resolution_witness :
    (let env : String → Option String :=
       fun s => if s = "DATADOG_FOO" then some "bar" else Option.none
     env ("DD_" ++ "FOO") = Option.none ∧ env ("DATADOG_" ++ "FOO") = some "bar" ∧
     getDatadogVariableValue env "FOO" = Except.ok "bar") :=
  ⟨by decide, by decide,
   (getDatadogVariableValue_resolution
      (fun s => if s = "DATADOG_FOO" then some "bar" else Option.none) "FOO").2.1
     (by decide) "bar" (by decide)⟩

/-- C5: the remote ruleset request carries the dd-api-key and
dd-application-key headers if and only if both the app-key and the api-key
variables resolve; when either is absent the request is still built, with
only its content-type header (sent unauthenticated rather than failing). -/
theorem buildRulesetRequest_auth (env : String → Option String) (rulesetName : String) :
    ((( "dd-api-key") ∈ (buildRulesetRequest env rulesetName).headers.map Prod.fst ∧
      ( "dd-application-key") ∈ (buildRulesetRequest env rulesetName).headers.map Prod.fst) ↔
      ((getDatadogVariableValue env "APP_KEY").isOk = true ∧
       (getDatadogVariableValue env "API_KEY").isOk = true)) ∧
    (¬ ((getDatadogVariableValue env "APP_KEY").isOk = true ∧
        (getDatadogVariableValue env "API_KEY").isOk = true) →
      (buildRulesetRequest env rulesetName).headers = [( "Content-Type", "application/json")]) := by
  cases hApp : getDatadogVariableValue env "APP_KEY" with
  | error eApp =>
    refine ⟨?_, ?_⟩
    · simp [buildRulesetRequest, hApp, Except.isOk, Except.toBool]
    · intro
      simp [buildRulesetRequest, hApp]
  | ok appk =>
    cases hApi : getDatadogVariableValue env "API_KEY" with
    | error eApi =>
      refine ⟨?_, ?_⟩
      · simp [buildRulesetRequest, hApp, hApi, Except.isOk, Except.toBool]
      · intro
        simp [buildRulesetRequest, hApp, hApi]
    | ok apik =>
      refine ⟨?_, ?_⟩
      · simp [buildRulesetRequest, hApp, hApi, Except.isOk, Except.toBool]
      · intro hcontra
        exact absurd ⟨by simp [hApp, Except.isOk, Except.toBool],
                      by simp [hApi, Except.isOk, Except.toBool]⟩ hcontra

/-- Witness for C5: with an empty environment neither key resolves and the
request is built with only the content-type header. -/
theorem buildRulesetRequest_auth_witness :
    (¬ ((getDatadogVariableValue (fun _ => Option.none) "APP_KEY").isOk = true ∧
        (getDatadogVariableValue (fun _ => Option.none) "API_KEY").isOk = true)) ∧
    (buildRulesetRequest (fun _ => Option.none) "rs").headers =
      [( "Content-Type", "application/json")] :=
  ⟨by decide,
   (buildRulesetRequest_auth (fun _ => Option.none) "rs").2 (by decide)⟩

/-- Rule of the SARIF generation scenario (spec section 8): severity Error. -/
def c2Rule : Rule :=
  { name := "my-rule", description_base64 := Option.none,
    short_description_base64 := Option.none,
    category := RuleCategory.bestPractices, severity := RuleSeverity.error }

/-- RuleResult of the SARIF generation scenario: one violation carrying one
Add-type fix edit at position (6,6) with content newcontent. -/
def c2RuleResult : RuleResult :=
  { rule_name := "my-rule", filename := "myfile",
    violations :=
      [{ start := { line := 1, col := 2 }, endPos := { line := 3, col := 4 },
         message := "violation message", severity := RuleSeverity.error,
         category := RuleCategory.bestPractices,
         fixes :=
           [{ description := "myfix",
              edits :=
                [{ edit_type := EditType.add, start := { line := 6, col := 6 },
                   endPos := some { line := 6, col := 6 },
                   content := some "newcontent" }] }] }],
    errors := [], execution_time_ms := 42 }

/-- C2: on the scenario input of one Error rule and one RuleResult with one
violation carrying a single Add-type fix edit at (6,6) inserting newcontent,
the generated report has a single result with ruleIndex 0, level error, and
one fix with one replacement whose deleted region is the zero-width range at
(6,6) and whose inserted content is newcontent. -/
theorem generateSarifReport_scenario :
    (generateSarifReport (fun _ => Option.none) (fun _ => Option.none)
        [c2Rule] [c2RuleResult] "mydir" false false).map
      (fun rep => (rep.runs.map sarif.Run.results).flatten.map fun r =>
        (r.rule_index, r.level,
         r.fixes.map fun f => f.artifact_changes.map sarif.ArtifactChange.replacements)) =
    Except.ok
      [(some 0, some "error",
        [[[{ deleted_region :=
               { start_line := 6, start_column := 6, end_line := 6, end_column := 6 },
             inserted_content := some { text := "newcontent" } }]]])] := rfl

/-- RuleResult used to exercise the blame paths of claim C3: one violation
starting at line 5 and carrying no fix. -/
def c3RuleResult : RuleResult :=
  { rule_name := "r", filename := "f",
    violations :=
      [{ start := { line := 5, col := 1 }, endPos := { line := 5, col := 10 },
         message := "m", severity := RuleSeverity.error,
         category := RuleCategory.security, fixes := [] }],
    errors := [], execution_time_ms := 0 }

/-- C3 (code bug evidence): with git info enabled, when blame of the whole
file fails the generation succeeds and simply omits the fingerprint, but when
blame of the file succeeds while no blame hunk covers the violation starting
line, the unwrap on get_line panics instead of omitting the fingerprint, and
report generation fails. -/
theorem getShaForLine_panics_without_hunk :
    (generateResults [] [c3RuleResult]
        { add_git_info := true, git_repo := some { blameFile := fun _ => Option.none },
          debug := false }).map (List.map fun r => r.partial_fingerprints) =
      Except.ok [[]] ∧
    generateResults [] [c3RuleResult]
        { add_git_info := true,
          git_repo := some { blameFile := fun _ => some fun _ => Option.none },
          debug := false } =
      Except.error "panic: blame get_line returned None" :=
  ⟨rfl, rfl⟩

/-- C8: a file whose content cannot be read contributes zero RuleResults to
the aggregated output, and every other file of the batch is processed
unaffected: the output over a batch containing the unreadable file equals the
concatenation of the outputs over the files before it and after it. -/
theorem analyzeFiles_unreadable_file_skipped
    (analyzeFile : String → String → List RuleResult)
    (readToString : String → Option String) (preceding following : List String) (p : String)
    (h : readToString p = Option.none) :
    analyzeFiles analyzeFile readToString (preceding ++ p :: following) =
      analyzeFiles analyzeFile readToString preceding ++
        analyzeFiles analyzeFile readToString following := by
  simp [analyzeFiles, List.flatMap_append, List.flatMap_cons, h]

/-- RuleResult used as the constant analysis output of the C8 witness. -/
def sampleRuleResult : RuleResult :=
  { rule_name := "sample", filename := "sample-file", violations := [],
    errors := [], execution_time_ms := 0 }

/-- Witness for C8 on a concrete three-file batch whose middle file is
unreadable. -/
theorem analyzeFiles_unreadable_file_skipped_witness :
    ((fun q => if q = "bad" then Option.none else some "text") "bad" = Option.none) ∧
    analyzeFiles (fun _ _ => [sampleRuleResult])
        (fun q => if q = "bad" then Option.none else some "text")
        ([ "a"] ++ "bad" :: [ "b"]) =
      analyzeFiles (fun _ _ => [sampleRuleResult])
          (fun q => if q = "bad" then Option.none else some "text") [ "a"] ++
        analyzeFiles (fun _ _ => [sampleRuleResult])
          (fun q => if q = "bad" then Option.none else some "text") [ "b"] :=
  ⟨by decide,
   analyzeFiles_unreadable_file_skipped (fun _ _ => [sampleRuleResult])
     (fun q => if q = "bad" then Option.none else some "text")
     [ "a"] [ "b"] "bad" (by decide)⟩

/-- Helper: searching an enumerated list with a predicate on the element
alone finds nothing when the predicate rejects every element. -/
lemma find?_enumFrom_eq_none {α : Type} (p : α → Bool) :
    ∀ (n : Nat) (l : List α), (∀ a ∈ l, p a = false) →
      ((List.enumFrom n l).find? fun q => p q.2) = Option.none := by
  intro n l
  induction l generalizing n with
  | nil => intro _; rfl
  | cons a t ih =>
    intro h
    have ha : p a = false := h a (List.mem_cons_self a t)
    simp only [List.enumFrom, List.find?_cons, ha]
    exact ih (n + 1) fun x hx => h x (List.mem_cons_of_mem a hx)

/-- Helper: collecting a list of options succeeds when every element is
present. -/
lemma collectOption_isSome_of_forall {α : Type} :
    ∀ l : List (Option α), (∀ x ∈ l, x.isSome = true) →
      ∃ out, collectOption l = some out := by
  intro l
  induction l with
  | nil => intro _; exact ⟨[], rfl⟩
  | cons x xs ih =>
    intro h
    obtain ⟨a, ha⟩ := Option.isSome_iff_exists.mp (h x (List.mem_cons_self x xs))
    obtain ⟨out, hout⟩ := ih fun y hy => h y (List.mem_cons_of_mem x hy)
    exact ⟨a :: out, by simp [collectOption, ha, hout]⟩

/-- Helper: collecting a list of results succeeds, preserves length and
propagates a per-element property when every element is Ok. -/
lemma collectExcept_ok_of_forall {ε α : Type} (P : α → Prop) :
    ∀ l : List (Except ε α), (∀ x ∈ l, ∃ a, x = Except.ok a ∧ P a) →
      ∃ out, collectExcept l = Except.ok out ∧ out.length = l.length ∧ ∀ a ∈ out, P a := by
  intro l
  induction l with
  | nil => intro _; exact ⟨[], rfl, rfl, by simp⟩
  | cons x xs ih =>
    intro h
    obtain ⟨a, hx, hPa⟩ := h x (List.mem_cons_self x xs)
    obtain ⟨out, hout, hlen, hP⟩ := ih fun y hy => h y (List.mem_cons_of_mem x hy)
    refine ⟨a :: out, ?_, ?_, ?_⟩
    · simp [collectExcept, hx, hout]
    · simp [hlen]
    · intro b hb
      rcases List.mem_cons.mp hb with hb | hb
      · exact hb ▸ hPa
      · exact hP b hb

/-- Helper: under the content invariant on its edits, converting a fix never
panics. -/
lemma fixIntoSarif_ok (filename : String) (fix : RosieFix)
    (hed : ∀ e ∈ fix.edits,
      (e.edit_type = EditType.add ∨ e.edit_type = EditType.update → editHasContent e = true)) :
    ∃ fx, fixIntoSarif filename fix = Except.ok fx := by
  have hAll : ∀ y ∈ fix.edits.map editIntoSarif, y.isSome = true := by
    intro y hy
    obtain ⟨e, he, rfl⟩ := List.mem_map.mp hy
    exact editIntoSarif_total e (hed e he)
  obtain ⟨reps, hreps⟩ := collectOption_isSome_of_forall (fix.edits.map editIntoSarif) hAll
  refine ⟨{ description := { text := fix.description },
            artifact_changes :=
              [{ artifact_location := { uri := filename }, replacements := reps }] }, ?_⟩
  simp only [fixIntoSarif, hreps]

/-- Helper: with git info disabled and the content invariant on the edits of
the violation, building one SARIF result succeeds and copies the rule name,
index, level and category tags it is given. -/
lemma violationIntoSarifResult_ok (filename ruleName : String) (ruleIndex : Option Nat)
    (level : Option String) (categoryTags : List String)
    (options : SarifGenerationOptions) (violation : Violation)
    (hgit : options.git_repo = Option.none)
    (hed : ∀ f ∈ violation.fixes, ∀ e ∈ f.edits,
      (e.edit_type = EditType.add ∨ e.edit_type = EditType.update → editHasContent e = true)) :
    ∃ res, violationIntoSarifResult filename ruleName ruleIndex level categoryTags
        options violation = Except.ok res ∧
      res.rule_id = ruleName ∧ res.rule_index = ruleIndex ∧ res.level = level ∧
      res.properties.tags = categoryTags := by
  have hAll : ∀ x ∈ violation.fixes.map (fixIntoSarif filename),
      ∃ a, x = Except.ok a ∧ True := by
    intro x hx
    obtain ⟨f, hf, rfl⟩ := List.mem_map.mp hx
    obtain ⟨fx, hfx⟩ := fixIntoSarif_ok filename f (hed f hf)
    exact ⟨fx, hfx, trivial⟩
  obtain ⟨fixesOut, hfixes, _, _⟩ :=
    collectExcept_ok_of_forall (fun _ => True)
      (violation.fixes.map (fixIntoSarif filename)) hAll
  refine ⟨{ rule_id := ruleName, rule_index := ruleIndex, level := level,
              locations :=
                [{ physical_location :=
                     { artifact_location := { uri := filename },
                       region :=
                         { start_line := violation.start.line,
                           start_column := violation.start.col,
                           end_line := violation.endPos.line,
                           end_column := violation.endPos.col } } }],
              fixes := fixesOut, message := { text := violation.message },
              properties := { tags := categoryTags },
              partial_fingerprints := [] }, ?_, rfl, rfl, rfl, rfl⟩
  simp only [violationIntoSarifResult, hfixes, getShaForLine, hgit]

/-- C10: for a RuleResult whose rule name matches no rule in the supplied
rule list, result generation (with git info disabled and edits satisfying the
content invariant of the data model) still succeeds and emits one SARIF
result per violation, each with ruleId the rule name of the result but with
no ruleIndex, no level, and an empty category tag list. -/
theorem generateResults_rule_not_found (rules : List Rule) (rr : RuleResult)
    (opts : SarifGenerationOptions)
    (hname : ∀ r ∈ rules, r.name ≠ rr.rule_name)
    (hgit : opts.git_repo = Option.none)
    (hedits : ∀ v ∈ rr.violations, ∀ f ∈ v.fixes, ∀ e ∈ f.edits,
      (e.edit_type = EditType.add ∨ e.edit_type = EditType.update → editHasContent e = true)) :
    ∃ results, generateResults rules [rr] opts = Except.ok results ∧
      results.length = rr.violations.length ∧
      ∀ res ∈ results, res.rule_id = rr.rule_name ∧ res.rule_index = Option.none ∧
        res.level = Option.none ∧ res.properties.tags = [] := by
  have hfound : (rules.enum.find? fun q => q.2.name == rr.rule_name) = Option.none := by
    have hall : ∀ r ∈ rules, (r.name == rr.rule_name) = false := fun r hr =>
      beq_eq_false_iff_ne.mpr (hname r hr)
    simpa [List.enum] using find?_enumFrom_eq_none (fun r => r.name == rr.rule_name) 0 rules hall
  have hvio : ∀ x ∈ rr.violations.map
      (violationIntoSarifResult rr.filename rr.rule_name Option.none Option.none [] opts),
      ∃ a, x = Except.ok a ∧ (a.rule_id = rr.rule_name ∧ a.rule_index = Option.none ∧
        a.level = Option.none ∧ a.properties.tags = []) := by
    intro x hx
    obtain ⟨v, hv, rfl⟩ := List.mem_map.mp hx
    obtain ⟨res, hres, h1, h2, h3, h4⟩ :=
      violationIntoSarifResult_ok rr.filename rr.rule_name Option.none Option.none []
        opts v hgit (hedits v hv)
    exact ⟨res, hres, h1, h2, h3, h4⟩
  obtain ⟨out, hout, hlen, hP⟩ := collectExcept_ok_of_forall _ _ hvio
  refine ⟨out, ?_, by simpa using hlen, fun res hres => hP res hres⟩
  simp only [generateResults, List.flatMap_cons, List.flatMap_nil, List.append_nil, hfound,
    Option.map_none]
  exact hout

/-- RuleResult of the C10 witness: its rule name matches no rule. -/
def c10RuleResult : RuleResult :=
  { rule_name := "other-rule", filename := "myfile",
    violations :=
      [{ start := { line := 1, col := 2 }, endPos := { line := 3, col := 4 },
         message := "violation message", severity := RuleSeverity.error,
         category := RuleCategory.bestPractices,
         fixes :=
           [{ description := "myfix",
              edits :=
                [{ edit_type := EditType.add, start := { line := 6, col := 6 },
                   endPos := some { line := 6, col := 6 },
                   content := some "newcontent" }] }] }],
    errors := [], execution_time_ms := 42 }

/-- Witness for C10 on the concrete unmatched-rule input of the test suite. -/
theorem generateResults_rule_not_found_witness :
    (∀ r ∈ [c2Rule], r.name ≠ c10RuleResult.rule_name) ∧
    (∃ results, generateResults [c2Rule] [c10RuleResult]
        { add_git_info := false, git_repo := Option.none, debug := false } =
          Except.ok results ∧
      results.length = c10RuleResult.violations.length ∧
      ∀ res ∈ results, res.rule_id = c10RuleResult.rule_name ∧
        res.rule_index = Option.none ∧ res.level = Option.none ∧
        res.properties.tags = []) :=
  ⟨by decide,
   generateResults_rule_not_found [c2Rule] c10RuleResult
     { add_git_info := false, git_repo := Option.none, debug := false }
     (by decide) rfl (by decide)⟩

end StaticAnalyzer
